import Mathlib

/-!
Shallow embedding of the bed-assignment subsystem of the HMS backend
(src/models.py and src/app.py): the Bed table, the POST /beds upsert
handler (create_or_update_bed), the POST /assign-bed handler (assign_bed)
and the GET /beds handler (get_beds), together with a reachability
relation over registry states, and theorems about the claims of the
specification.
-/

/-- A row of the Bed table (models.py, class Bed).  In the schema the
column bed_no is declared as the table's sole primary key
(models.py line 29: bed_no = db.Column(db.String, primary_key=True));
ward, status and the optional patient_id are plain columns.  JSON scalar
values are modelled as strings. -/
structure Bed where
  bed_no : String
  ward : String
  status : String
  patient_id : Option String
deriving DecidableEq, Repr

/-- The registry state: the rows of the Bed table in insertion order.
SQLAlchemy's Query.first() with no order_by returns the first row in
this order. -/
abbrev Registry := List Bed

/-- A parsed JSON object payload, as an association list of string keys
to string values (Python dict keys are unique; lookup takes the first
binding). -/
abbrev Payload := List (String × String)

/-- Python dict.get(k): the value bound to k, if present. -/
def pget (d : Payload) (k : String) : Option String :=
  (d.find? (fun kv => kv.1 == k)).map (fun kv => kv.2)

/-- Python truthiness of a value obtained from dict.get: None and the
empty string are falsy, every other string is truthy. -/
def isTruthy : Option String → Bool
  | none => false
  | some s => !(s == "")

/-- Python's `x or y` on two dict.get results: x when x is truthy,
otherwise y. -/
def pyOr (a b : Option String) : Option String :=
  if isTruthy a then a else b

/-- SQLite's ASCII case folding (sqlite3UpperToLower), used by the
default LIKE comparison: the letters A-Z map to a-z, every other
character is unchanged. -/
def asciiLower (c : Char) : Char :=
  if 'A' ≤ c && c ≤ 'Z' then Char.ofNat (c.toNat + 32) else c

/-- Character comparison of SQLite's default LIKE: equal up to ASCII
case folding. -/
def likeCharEq (p c : Char) : Bool :=
  asciiLower p == asciiLower c

/-- The SQL LIKE pattern matcher of SQLite with its default settings
(no ESCAPE clause, case_sensitive_like off): in the pattern, the
percent sign matches any sequence of zero or more characters, the
underscore matches any single character, and every other character
matches a single character equal to it up to ASCII case folding. -/
def likeMatch : List Char → List Char → Bool
  | [], s => s.isEmpty
  | p :: ps, s =>
    if p == '%' then
      (s.tails).any (fun t => likeMatch ps t)
    else
      match s with
      | [] => false
      | c :: cs => (p == '_' || likeCharEq p c) && likeMatch ps cs

/-- The fuzzy containment test of the SQLAlchemy column operator
`Bed.ward.contains(ward)` of app.py line 263: it compiles to the SQL
predicate `ward LIKE '%' || <given> || '%'` with no escape character,
evaluated by the SQLite backend configured in app.py line 20, whose
LIKE is ASCII-case-insensitive and treats a percent sign or underscore
occurring in the given ward as a wildcard. -/
def containsStr (s sub : String) : Bool :=
  likeMatch ('%' :: (sub.toList ++ ['%'])) s.toList

/-- Does the character list `needle` occur contiguously inside the
second list? -/
def charsInfixOf (needle : List Char) : List Char → Bool
  | [] => needle.isEmpty
  | d :: ds => needle.isPrefixOf (d :: ds) || charsInfixOf needle ds

/-- The fuzzy ward match as the specification's words describe it —
case-sensitive literal substring containment — kept distinct from
containsStr, the behavior of the code, so the two can be compared. -/
def specContainsStr (s sub : String) : Bool :=
  charsInfixOf sub.toList s.toList

/-- The exact-match row predicate of
`Bed.query.filter_by(bed_no=bed_no, ward=ward)` (app.py lines 206, 260). -/
def exactMatch (bno w : String) (b : Bed) : Bool :=
  b.bed_no == bno && b.ward == w

/-- The fuzzy-match row predicate of
`Bed.query.filter(Bed.bed_no == bed_no, Bed.ward.contains(ward))`
(app.py line 263). -/
def fuzzyMatch (bno w : String) (b : Bed) : Bool :=
  b.bed_no == bno && containsStr b.ward w

/-- Bed resolution of assign_bed (app.py lines 260-263): the index of the
first exact match on (bed_no, ward); when none exists, the index of the
first row whose ward contains the given ward. -/
def resolveIdx (beds : Registry) (bno w : String) : Option Nat :=
  match beds.findIdx? (exactMatch bno w) with
  | some i => some i
  | none => beds.findIdx? (fuzzyMatch bno w)

/-- Placeholder row used with List.getD at an index that is always in
range when reached. -/
def noBed : Bed := ⟨"", "", "", none⟩

/-- An HTTP response of the two POST handlers: an error with status code
and msg, a success carrying msg and the echoed bed fields (bed_no, ward,
status, patient_id), or dbError for a request aborted by an uncaught
database IntegrityError (the commit is never reached, so the registry is
unchanged). -/
inductive Resp where
  | err (code : Nat) (msg : String)
  | okBed (code : Nat) (msg : String) (bed : Bed)
  | dbError
deriving DecidableEq, Repr

/-- The key-alias normalization of assign_bed for the bed number
(app.py line 250): data.get(snake case key) or data.get(camel case key). -/
def normBedNo (d : Payload) : Option String :=
  pyOr (pget d "bed_no") (pget d "bedNo")

/-- The key-alias normalization of assign_bed for the patient id
(app.py line 252): data.get(snake case key) or data.get(camel case key). -/
def normPatientId (d : Payload) : Option String :=
  pyOr (pget d "patient_id") (pget d "patientId")

/-- The POST /beds handler create_or_update_bed (app.py lines 185-236),
applied to a parsed JSON payload.  It reads bed_no, ward and status
(defaulting to "Available") under their snake-case keys only, validates
bed_no and ward for truthiness, and upserts: if a row matches
(bed_no, ward) exactly, its status is overwritten and its patient_id is
cleared exactly when the submitted status is "Available"; otherwise a new
row is inserted with no patient.  The insert is subject to the schema's
primary key on the bed_no column alone (models.py line 29): when another
row already holds the same bed_no, SQLite rejects the INSERT, the
uncaught IntegrityError aborts the request and nothing is committed,
modelled by dbError. -/
def create_or_update_bed (beds : Registry) (d : Payload) : Resp × Registry :=
  if d.isEmpty then (.err 400 "Empty payload", beds)
  else
    let bed_no := pget d "bed_no"
    let ward := pget d "ward"
    let status := (pget d "status").getD "Available"
    if !(isTruthy bed_no) || !(isTruthy ward) then
      (.err 400 "bed_no and ward are required", beds)
    else
      let bno := bed_no.getD ""
      let w := ward.getD ""
      match beds.findIdx? (exactMatch bno w) with
      | some i =>
        let old := beds.getD i noBed
        let nb : Bed :=
          { old with
            status := status
            patient_id := if status == "Available" then none else old.patient_id }
        (.okBed 200 "Bed status updated" nb, beds.set i nb)
      | none =>
        if beds.any (fun b => b.bed_no == bno) then
          (.dbError, beds)
        else
          let nb : Bed := { bed_no := bno, ward := w, status := status, patient_id := none }
          (.okBed 201 "Bed created" nb, beds ++ [nb])

/-- The POST /assign-bed handler assign_bed (app.py lines 238-281),
applied to a parsed JSON payload.  It normalizes bed_no and patient_id
through their key aliases, validates all three fields for truthiness,
resolves the bed (exact match first, then fuzzy ward containment), fails
with 404 when unresolved and with 400 when the resolved bed is already
Occupied, and otherwise marks the bed Occupied by the given patient. -/
def assign_bed (beds : Registry) (d : Payload) : Resp × Registry :=
  if d.isEmpty then (.err 400 "Empty payload", beds)
  else
    let bed_no := normBedNo d
    let ward := pget d "ward"
    let patient_id := normPatientId d
    if !(isTruthy bed_no) || !(isTruthy ward) || !(isTruthy patient_id) then
      (.err 400 "bed_no, ward, and patient_id are required", beds)
    else
      let bno := bed_no.getD ""
      let w := ward.getD ""
      let pid := patient_id.getD ""
      match resolveIdx beds bno w with
      | none =>
        (.err 404 ("Bed not found with bed_no=" ++ bno ++ " and ward=" ++ w), beds)
      | some i =>
        let bed := beds.getD i noBed
        if bed.status == "Occupied" then
          (.err 400 "Bed already occupied", beds)
        else
          let nb : Bed := { bed with status := "Occupied", patient_id := some pid }
          (.okBed 200 "Bed assigned" nb, beds.set i nb)

/-- The GET /beds handler (app.py lines 177-183): serializes every row's
(bed_no, ward, status, patient_id); the observable registry state. -/
def get_beds (beds : Registry) : List Bed := beds

/-- A request of the public API surface of the bed subsystem. -/
inductive Request where
  | postBeds (d : Payload)
  | postAssignBed (d : Payload)
  | getBedsReq

/-- The registry state after one request. -/
def step (beds : Registry) : Request → Registry
  | .postBeds d => (create_or_update_bed beds d).2
  | .postAssignBed d => (assign_bed beds d).2
  | .getBedsReq => beds

/-- Registry states reachable from the empty table through the public
operations. -/
inductive Reachable : Registry → Prop where
  | init : Reachable []
  | next {s : Registry} (r : Request) : Reachable s → Reachable (step s r)
/-- A list is unchanged by writing at an index the value it already
holds there. -/
theorem set_getElem?_eq {α : Type _} {l : List α} {i : Nat} {a : α} (h : l[i]? = some a) :
    l.set i a = l := by
  induction l generalizing i with
  | nil => simp at h
  | cons x xs ih =>
    cases i with
    | zero =>
      simp only [List.getElem?_cons_zero, Option.some.injEq] at h
      simp [List.set, h]
    | succ n =>
      simp only [List.getElem?_cons_succ] at h
      simp [List.set, ih h]

/-- Overwriting the first index satisfying p with a value that still
satisfies p leaves findIdx? unchanged. -/
theorem findIdx?_set_pred {α : Type _} {l : List α} {p : α → Bool} {i : Nat} {a : α}
    (h : l.findIdx? p = some i) (ha : p a = true) :
    (l.set i a).findIdx? p = some i := by
  rw [List.findIdx?_eq_some_iff_getElem] at h
  obtain ⟨hi, _, hbefore⟩ := h
  rw [List.findIdx?_eq_some_iff_getElem]
  refine ⟨by simpa using hi, ?_, ?_⟩
  · rw [List.getElem_set_self]
    exact ha
  · intro j hj
    rw [List.getElem_set_ne (by omega)]
    exact hbefore j hj
/-- Every row present after an upsert request was already present, or is
the row the request wrote: its status is the submitted status (default
"Available") and its patient_id is cleared whenever that status is
"Available". -/
theorem upsert_mem (beds : Registry) (d : Payload) :
    ∀ nb ∈ (create_or_update_bed beds d).2,
      nb ∈ beds ∨ (nb.status = (pget d "status").getD "Available"
        ∧ (nb.status = "Available" → nb.patient_id = none)) := by
  intro nb hnb
  simp only [create_or_update_bed] at hnb
  split at hnb
  · exact Or.inl hnb
  · split at hnb
    · exact Or.inl hnb
    · split at hnb
      · rcases List.mem_or_eq_of_mem_set hnb with h | h
        · exact Or.inl h
        · subst h
          refine Or.inr ⟨rfl, fun hav => ?_⟩
          simp only at hav
          simp [hav]
      · split at hnb
        · exact Or.inl hnb
        · rcases List.mem_append.mp hnb with h | h
          · exact Or.inl h
          · rcases List.mem_singleton.mp h with rfl
            exact Or.inr ⟨rfl, fun _ => rfl⟩

/-- Every row present after an assign-bed request was already present,
or is the row the request wrote: Occupied, holding some patient. -/
theorem assign_mem (beds : Registry) (d : Payload) :
    ∀ nb ∈ (assign_bed beds d).2,
      nb ∈ beds ∨ (nb.status = "Occupied" ∧ ∃ p, nb.patient_id = some p) := by
  intro nb hnb
  simp only [assign_bed] at hnb
  split at hnb
  · exact Or.inl hnb
  · split at hnb
    · exact Or.inl hnb
    · split at hnb
      · exact Or.inl hnb
      · split at hnb
        · exact Or.inl hnb
        · rcases List.mem_or_eq_of_mem_set hnb with h | h
          · exact Or.inl h
          · subst h
            exact Or.inr ⟨rfl, _, rfl⟩
/-- In every reachable registry state, an Available bed holds no
patient. -/
theorem reachable_avail_none {s : Registry} (h : Reachable s) :
    ∀ b ∈ s, b.status = "Available" → b.patient_id = none := by
  induction h with
  | init => intro b hb; simp at hb
  | next r hs ih =>
    cases r with
    | postBeds d =>
      intro b hb hav
      rcases upsert_mem _ d b hb with hmem | ⟨_, hcl⟩
      · exact ih b hmem hav
      · exact hcl hav
    | postAssignBed d =>
      intro b hb hav
      rcases assign_mem _ d b hb with hmem | ⟨hocc, _⟩
      · exact ih b hmem hav
      · rw [hocc] at hav
        exact absurd hav (by decide)
    | getBedsReq => exact ih

/-- A payload whose effective status field (default "Available") lies in
the modelled status enumeration. -/
def goodStatus (d : Payload) : Prop :=
  (pget d "status").getD "Available" = "Available"
    ∨ (pget d "status").getD "Available" = "Occupied"

/-- A request whose upsert payload, if any, carries an in-range
status. -/
def goodReq : Request → Prop
  | .postBeds d => goodStatus d
  | _ => True

/-- Registry states reachable from the empty table through requests
whose upsert payloads carry in-range statuses. -/
inductive ReachableGood : Registry → Prop where
  | init : ReachableGood []
  | next {s : Registry} (r : Request) : ReachableGood s → goodReq r → ReachableGood (step s r)

/-- Under in-range upsert statuses, every reachable bed's status is
Available or Occupied. -/
theorem reachableGood_status {s : Registry} (h : ReachableGood s) :
    ∀ b ∈ s, b.status = "Available" ∨ b.status = "Occupied" := by
  induction h with
  | init => intro b hb; simp at hb
  | next r hs hg ih =>
    cases r with
    | postBeds d =>
      intro b hb
      rcases upsert_mem _ d b hb with hmem | ⟨hst, _⟩
      · exact ih b hmem
      · rw [hst]
        exact hg
    | postAssignBed d =>
      intro b hb
      rcases assign_mem _ d b hb with hmem | ⟨hocc, _⟩
      · exact ih b hmem
      · exact Or.inr hocc
    | getBedsReq => exact ih
/-- C1: the bed registry does not key bed records by (bed_no, ward): the
schema's primary key is bed_no alone, so submitting a fresh
(bed_no, ward) pair whose bed_no already exists in another ward does not
create a record — the INSERT violates the primary key, the request
aborts, and the registry is unchanged. -/
theorem c1_pk_collision_fails :
    create_or_update_bed [⟨"101", "Ward A", "Available", none⟩]
        [("bed_no", "101"), ("ward", "Ward B")]
      = (.dbError, [⟨"101", "Ward A", "Available", none⟩]) := by decide

/-- C2 counterexample: the upsert operation does not accept the bed
number under the camelCase key — a POST /beds payload carrying bedNo and
ward is rejected with 400. -/
theorem c2_counterexample :
    create_or_update_bed [] [("bedNo", "101"), ("ward", "W")]
      = (.err 400 "bed_no and ward are required", []) := by decide

/-- C2 amended: only assign-bed accepts the camelCase aliases bedNo and
patientId; they behave exactly like the snake_case keys, and when both
keys are present with a truthy snake_case value the snake_case value is
used; the upsert operation accepts the bed number under its snake_case
key only. -/
theorem c2_alias_normalization (beds : Registry) (b w p b2 p2 : String)
    (hb : b ≠ "") (hp : p ≠ "") :
    assign_bed beds [("bedNo", b), ("ward", w), ("patientId", p)]
        = assign_bed beds [("bed_no", b), ("ward", w), ("patient_id", p)]
      ∧ assign_bed beds [("bed_no", b), ("bedNo", b2), ("ward", w),
            ("patient_id", p), ("patientId", p2)]
        = assign_bed beds [("bed_no", b), ("ward", w), ("patient_id", p)]
      ∧ create_or_update_bed beds [("bedNo", b), ("ward", w)]
        = (.err 400 "bed_no and ward are required", beds) := by
  refine ⟨?_, ?_, ?_⟩
  · simp [assign_bed, normBedNo, normPatientId, pget, pyOr, isTruthy, hb, hp]
  · simp [assign_bed, normBedNo, normPatientId, pget, pyOr, isTruthy, hb, hp]
  · simp [create_or_update_bed, pget, isTruthy]

/-- C2 amended, instantiated at a concrete request. -/
theorem c2_alias_normalization_witness :
    assign_bed [] [("bedNo", "101"), ("ward", "W"), ("patientId", "7")]
        = assign_bed [] [("bed_no", "101"), ("ward", "W"), ("patient_id", "7")]
      ∧ assign_bed [] [("bed_no", "101"), ("bedNo", "x"), ("ward", "W"),
            ("patient_id", "7"), ("patientId", "y")]
        = assign_bed [] [("bed_no", "101"), ("ward", "W"), ("patient_id", "7")]
      ∧ create_or_update_bed [] [("bedNo", "101"), ("ward", "W")]
        = (.err 400 "bed_no and ward are required", []) :=
  c2_alias_normalization [] "101" "W" "7" "x" "y" (by decide) (by decide)
/-- C3: an assign-bed request that passes validation and resolves to a
bed whose status is Occupied fails with 400 "Bed already occupied" and
leaves the registry — hence the bed's status and patient_id —
unchanged. -/
theorem c3_occupied_conflict (beds : Registry) (d : Payload) (i : Nat) (b : Bed)
    (hne : d.isEmpty = false)
    (hb : isTruthy (normBedNo d) = true)
    (hw : isTruthy (pget d "ward") = true)
    (hp : isTruthy (normPatientId d) = true)
    (hres : resolveIdx beds ((normBedNo d).getD "") ((pget d "ward").getD "") = some i)
    (hget : beds[i]? = some b)
    (hocc : b.status = "Occupied") :
    assign_bed beds d = (.err 400 "Bed already occupied", beds) := by
  simp only [assign_bed, hne, hb, hw, hp, hres, Bool.not_true, Bool.false_or,
    Bool.or_self, Bool.false_eq_true, if_false]
  simp [List.getD_eq_getElem?_getD, hget, hocc]

/-- C3, instantiated: a bed Occupied by patient 7 rejects assignment of
patient 8 and keeps its occupant. -/
theorem c3_occupied_conflict_witness :
    assign_bed [⟨"1", "W", "Occupied", some "7"⟩]
        [("bed_no", "1"), ("ward", "W"), ("patient_id", "8")]
      = (.err 400 "Bed already occupied", [⟨"1", "W", "Occupied", some "7"⟩]) :=
  c3_occupied_conflict [⟨"1", "W", "Occupied", some "7"⟩]
    [("bed_no", "1"), ("ward", "W"), ("patient_id", "8")] 0
    ⟨"1", "W", "Occupied", some "7"⟩
    (by decide) (by decide) (by decide) (by decide) (by decide) (by decide) (by decide)

/-- C8: an assign-bed request that passes validation and resolves to a
bed that is not Occupied marks exactly that bed Occupied by the given
patient and returns 200 "Bed assigned" with the updated record's
fields. -/
theorem c8_assign_success (beds : Registry) (d : Payload) (i : Nat) (b : Bed)
    (hne : d.isEmpty = false)
    (hb : isTruthy (normBedNo d) = true)
    (hw : isTruthy (pget d "ward") = true)
    (hp : isTruthy (normPatientId d) = true)
    (hres : resolveIdx beds ((normBedNo d).getD "") ((pget d "ward").getD "") = some i)
    (hget : beds[i]? = some b)
    (hocc : b.status ≠ "Occupied") :
    assign_bed beds d
      = (.okBed 200 "Bed assigned"
            ⟨b.bed_no, b.ward, "Occupied", some ((normPatientId d).getD "")⟩,
         beds.set i ⟨b.bed_no, b.ward, "Occupied", some ((normPatientId d).getD "")⟩) := by
  simp only [assign_bed, hne, hb, hw, hp, hres, Bool.not_true, Bool.false_or,
    Bool.or_self, Bool.false_eq_true, if_false]
  simp [List.getD_eq_getElem?_getD, hget, hocc]

/-- C8, instantiated: assigning patient 7 to an Available bed marks it
Occupied by patient 7. -/
theorem c8_assign_success_witness :
    assign_bed [⟨"101", "Ward A", "Available", none⟩]
        [("bed_no", "101"), ("ward", "Ward A"), ("patient_id", "7")]
      = (.okBed 200 "Bed assigned" ⟨"101", "Ward A", "Occupied", some "7"⟩,
         [⟨"101", "Ward A", "Occupied", some "7"⟩]) :=
  c8_assign_success [⟨"101", "Ward A", "Available", none⟩]
    [("bed_no", "101"), ("ward", "Ward A"), ("patient_id", "7")] 0
    ⟨"101", "Ward A", "Available", none⟩
    (by decide) (by decide) (by decide) (by decide) (by decide) (by decide) (by decide)
/-- C4 counterexample: one upsert request reaches a registry state
holding a bed whose status "Maintenance" is outside
{Available, Occupied} — the upsert stores any submitted status
verbatim. -/
theorem c4_counterexample :
    Reachable [⟨"B1", "W", "Maintenance", none⟩]
      ∧ ¬ ("Maintenance" = "Available" ∨ "Maintenance" = "Occupied") := by
  constructor
  · have h : step [] (.postBeds [("bed_no", "B1"), ("ward", "W"), ("status", "Maintenance")])
        = [⟨"B1", "W", "Maintenance", none⟩] := by decide
    rw [← h]
    exact Reachable.next _ Reachable.init
  · decide

/-- C4 amended: assign-bed only ever writes the status "Occupied", and
the upsert stores the submitted status verbatim; therefore in every
state reachable through requests whose upsert payloads carry a status in
{Available, Occupied} (or none, defaulting to "Available"), every bed's
status lies in that set. -/
theorem c4_status_range {s : Registry} (h : ReachableGood s) :
    ∀ b ∈ s, b.status = "Available" ∨ b.status = "Occupied" := by
  induction h with
  | init => intro b hb; simp at hb
  | next r hs hg ih =>
    cases r with
    | postBeds d =>
      intro b hb
      rcases upsert_mem _ d b hb with hmem | ⟨hst, _⟩
      · exact ih b hmem
      · rw [hst]
        exact hg
    | postAssignBed d =>
      intro b hb
      rcases assign_mem _ d b hb with hmem | ⟨hocc, _⟩
      · exact ih b hmem
      · exact Or.inr hocc
    | getBedsReq => exact ih

/-- C4 amended, instantiated at the bed reached by one upsert with the
status field omitted. -/
theorem c4_status_range_witness :
    Bed.status ⟨"B1", "W", "Available", none⟩ = "Available"
      ∨ Bed.status ⟨"B1", "W", "Available", none⟩ = "Occupied" :=
  c4_status_range
    (ReachableGood.next (.postBeds [("bed_no", "B1"), ("ward", "W")])
      ReachableGood.init (Or.inl rfl))
    ⟨"B1", "W", "Available", none⟩ (by decide)

/-- C5 counterexample: with a bed stored under ward "Ward A" and the
submitted ward "ward a", no exact match exists and the submitted ward
is not a case-sensitive substring of the stored ward, so the claim
requires the request to fail with 404 — yet the code's LIKE-based fuzzy
match is ASCII-case-insensitive, resolves the bed and assigns it
(200). -/
theorem c5_counterexample :
    ([⟨"101", "Ward A", "Available", none⟩] : Registry).findIdx?
        (exactMatch "101" "ward a") = none
      ∧ specContainsStr "Ward A" "ward a" = false
      ∧ assign_bed [⟨"101", "Ward A", "Available", none⟩]
            [("bed_no", "101"), ("ward", "ward a"), ("patient_id", "7")]
          = (.okBed 200 "Bed assigned" ⟨"101", "Ward A", "Occupied", some "7"⟩,
             [⟨"101", "Ward A", "Occupied", some "7"⟩]) := by decide

/-- C5 amended: assign-bed resolves its target by the first exact match
on (bed_no, ward); failing that, by the first row whose stored ward
matches the SQL pattern built from the given ward wrapped in percent
signs, under SQLite LIKE semantics (ASCII-case-insensitive, with the
percent sign and underscore acting as wildcards); failing both, the
request ends with 404.  In particular a bed stored with ward "Ward A"
is resolved for the submitted ward "A" when no exact match exists —
and, case-insensitively, for the submitted ward "ward a". -/
theorem c5_resolution_order (beds : Registry) (b w p : String)
    (hb : b ≠ "") (hw : w ≠ "") (hp : p ≠ "") :
    (∀ i, beds.findIdx? (exactMatch b w) = some i → resolveIdx beds b w = some i)
      ∧ (beds.findIdx? (exactMatch b w) = none →
          resolveIdx beds b w = beds.findIdx? (fuzzyMatch b w))
      ∧ (resolveIdx beds b w = none →
          assign_bed beds [("bed_no", b), ("ward", w), ("patient_id", p)]
            = (.err 404 ("Bed not found with bed_no=" ++ b ++ " and ward=" ++ w), beds))
      ∧ assign_bed [⟨"101", "Ward A", "Available", none⟩]
            [("bed_no", "101"), ("ward", "A"), ("patient_id", "7")]
          = (.okBed 200 "Bed assigned" ⟨"101", "Ward A", "Occupied", some "7"⟩,
             [⟨"101", "Ward A", "Occupied", some "7"⟩])
      ∧ assign_bed [⟨"101", "Ward A", "Available", none⟩]
            [("bed_no", "101"), ("ward", "ward a"), ("patient_id", "7")]
          = (.okBed 200 "Bed assigned" ⟨"101", "Ward A", "Occupied", some "7"⟩,
             [⟨"101", "Ward A", "Occupied", some "7"⟩]) := by
  refine ⟨?_, ?_, ?_, by decide, by decide⟩
  · intro i hi
    simp [resolveIdx, hi]
  · intro hnone
    simp [resolveIdx, hnone]
  · intro hnone
    simp [assign_bed, normBedNo, normPatientId, pget, pyOr, isTruthy, hb, hw, hp, hnone]

/-- C5 amended, instantiated on the empty registry: resolution finds
nothing and the request ends with 404, and both concrete fuzzy
resolutions succeed. -/
theorem c5_resolution_order_witness :
    (∀ i, ([] : Registry).findIdx? (exactMatch "101" "W") = some i →
        resolveIdx [] "101" "W" = some i)
      ∧ (([] : Registry).findIdx? (exactMatch "101" "W") = none →
          resolveIdx [] "101" "W" = ([] : Registry).findIdx? (fuzzyMatch "101" "W"))
      ∧ (resolveIdx [] "101" "W" = none →
          assign_bed [] [("bed_no", "101"), ("ward", "W"), ("patient_id", "7")]
            = (.err 404 ("Bed not found with bed_no=" ++ "101" ++ " and ward=" ++ "W"), []))
      ∧ assign_bed [⟨"101", "Ward A", "Available", none⟩]
            [("bed_no", "101"), ("ward", "A"), ("patient_id", "7")]
          = (.okBed 200 "Bed assigned" ⟨"101", "Ward A", "Occupied", some "7"⟩,
             [⟨"101", "Ward A", "Occupied", some "7"⟩])
      ∧ assign_bed [⟨"101", "Ward A", "Available", none⟩]
            [("bed_no", "101"), ("ward", "ward a"), ("patient_id", "7")]
          = (.okBed 200 "Bed assigned" ⟨"101", "Ward A", "Occupied", some "7"⟩,
             [⟨"101", "Ward A", "Occupied", some "7"⟩]) :=
  c5_resolution_order [] "101" "W" "7" (by decide) (by decide) (by decide)
/-- C6: an upsert whose effective status is "Available" on an existing
(bed_no, ward) overwrites that bed to Available and clears its
patient_id, whoever occupied it; and in every reachable registry state
every Available bed has no patient. -/
theorem c6_vacate_clears (beds s : Registry) (d : Payload) (i : Nat) (old : Bed)
    (hr : Reachable s)
    (hne : d.isEmpty = false)
    (hb : isTruthy (pget d "bed_no") = true)
    (hw : isTruthy (pget d "ward") = true)
    (hst : (pget d "status").getD "Available" = "Available")
    (hidx : beds.findIdx?
        (exactMatch ((pget d "bed_no").getD "") ((pget d "ward").getD "")) = some i)
    (hold : beds[i]? = some old) :
    create_or_update_bed beds d
        = (.okBed 200 "Bed status updated" ⟨old.bed_no, old.ward, "Available", none⟩,
           beds.set i ⟨old.bed_no, old.ward, "Available", none⟩)
      ∧ ∀ b ∈ s, b.status = "Available" → b.patient_id = none := by
  refine ⟨?_, reachable_avail_none hr⟩
  simp only [create_or_update_bed, hne, hb, hw, hst, hidx, Bool.not_true,
    Bool.or_self, Bool.false_eq_true, if_false]
  simp [List.getD_eq_getElem?_getD, hold]

/-- C6, instantiated: vacating a bed Occupied by patient 7 clears the
occupant. -/
theorem c6_vacate_clears_witness :
    create_or_update_bed [⟨"101", "W", "Occupied", some "7"⟩]
        [("bed_no", "101"), ("ward", "W"), ("status", "Available")]
        = (.okBed 200 "Bed status updated" ⟨"101", "W", "Available", none⟩,
           [⟨"101", "W", "Available", none⟩])
      ∧ ∀ b ∈ ([] : Registry), b.status = "Available" → b.patient_id = none :=
  c6_vacate_clears [⟨"101", "W", "Occupied", some "7"⟩] []
    [("bed_no", "101"), ("ward", "W"), ("status", "Available")] 0
    ⟨"101", "W", "Occupied", some "7"⟩ Reachable.init
    (by decide) (by decide) (by decide) (by decide) (by decide) (by decide)

/-- C10: the upsert never writes a patient reference — every row of the
post-state either sits at a position that existed before with its
patient_id unchanged or cleared, or is the newly created row, which
starts with no patient whatever status was submitted. -/
theorem c10_upsert_pid_frame (beds : Registry) (d : Payload) (j : Nat) (nb : Bed)
    (h : ((create_or_update_bed beds d).2)[j]? = some nb) :
    (∃ ob, beds[j]? = some ob ∧ (nb.patient_id = ob.patient_id ∨ nb.patient_id = none))
      ∨ (beds[j]? = none ∧ nb.patient_id = none) := by
  simp only [create_or_update_bed] at h
  split at h
  · exact Or.inl ⟨nb, h, Or.inl rfl⟩
  · split at h
    · exact Or.inl ⟨nb, h, Or.inl rfl⟩
    · split at h
      case _ i hidx =>
        have hi : i < beds.length :=
          (List.findIdx?_eq_some_iff_getElem.mp hidx).1
        by_cases hij : i = j
        · subst hij
          rw [List.getElem?_set_self (by simpa using hi)] at h
          injection h with h
          have hb : beds[i]? = some beds[i] := List.getElem?_eq_getElem hi
          refine Or.inl ⟨beds[i], hb, ?_⟩
          have hpid : nb.patient_id
              = (if ((pget d "status").getD "Available" == "Available") = true then none
                 else (beds.getD i noBed).patient_id) := by
            rw [← h]
          rw [hpid]
          split
          · exact Or.inr rfl
          · rw [List.getD_eq_getElem?_getD, hb]
            exact Or.inl rfl
        · rw [List.getElem?_set_ne hij] at h
          exact Or.inl ⟨nb, h, Or.inl rfl⟩
      · split at h
        · exact Or.inl ⟨nb, h, Or.inl rfl⟩
        · rcases Nat.lt_trichotomy j beds.length with hj | hj | hj
          · rw [List.getElem?_append_left hj] at h
            exact Or.inl ⟨nb, h, Or.inl rfl⟩
          · subst hj
            rw [List.getElem?_concat_length] at h
            injection h with h
            refine Or.inr ⟨List.getElem?_eq_none (Nat.le_refl _), ?_⟩
            rw [← h]
          · rw [List.getElem?_eq_none (by simpa using hj)] at h
            exact Option.noConfusion h

/-- C10, instantiated: a bed created by an upsert that force-sets the
status "Occupied" still starts with no patient. -/
theorem c10_upsert_pid_frame_witness :
    (∃ ob, ([] : Registry)[0]? = some ob
        ∧ ((Bed.mk "101" "W" "Occupied" none).patient_id = ob.patient_id
            ∨ (Bed.mk "101" "W" "Occupied" none).patient_id = none))
      ∨ (([] : Registry)[0]? = none
          ∧ (Bed.mk "101" "W" "Occupied" none).patient_id = none) :=
  c10_upsert_pid_frame []
    [("bed_no", "101"), ("ward", "W"), ("status", "Occupied")] 0
    ⟨"101", "W", "Occupied", none⟩ (by decide)
/-- Shape of a vacating upsert when an exact (bed_no, ward) match exists
at index i: that row is overwritten to Available with no patient. -/
theorem upsert_avail_update (beds : Registry) (b w : String) (i : Nat)
    (hb : b ≠ "") (hw : w ≠ "")
    (hidx : beds.findIdx? (exactMatch b w) = some i) :
    (create_or_update_bed beds [("bed_no", b), ("ward", w), ("status", "Available")]).2
      = beds.set i ⟨(beds.getD i noBed).bed_no, (beds.getD i noBed).ward, "Available", none⟩ := by
  simp [create_or_update_bed, pget, isTruthy, hb, hw, hidx]

/-- Shape of a vacating upsert when no exact match exists and the
bed_no column is fresh: a new Available row is appended. -/
theorem upsert_avail_create (beds : Registry) (b w : String)
    (hb : b ≠ "") (hw : w ≠ "")
    (hidx : beds.findIdx? (exactMatch b w) = none)
    (hany : beds.any (fun bb => bb.bed_no == b) = false) :
    (create_or_update_bed beds [("bed_no", b), ("ward", w), ("status", "Available")]).2
      = beds ++ [⟨b, w, "Available", none⟩] := by
  simp [create_or_update_bed, pget, isTruthy, hb, hw, hidx, hany]

/-- Shape of a vacating upsert when no exact match exists but the
bed_no column already holds the value: the INSERT is rejected by the
primary key and the registry is unchanged. -/
theorem upsert_avail_conflict (beds : Registry) (b w : String)
    (hb : b ≠ "") (hw : w ≠ "")
    (hidx : beds.findIdx? (exactMatch b w) = none)
    (hany : beds.any (fun bb => bb.bed_no == b) = true) :
    (create_or_update_bed beds [("bed_no", b), ("ward", w), ("status", "Available")]).2
      = beds := by
  simp [create_or_update_bed, pget, isTruthy, hb, hw, hidx, hany]

/-- C7: the vacating upsert is idempotent — applying
upsert(b, w, "Available") twice yields the same observable registry
state (the GET /beds listing) as applying it once. -/
theorem c7_vacate_idempotent (beds : Registry) (b w : String) :
    get_beds (create_or_update_bed
        (create_or_update_bed beds [("bed_no", b), ("ward", w), ("status", "Available")]).2
        [("bed_no", b), ("ward", w), ("status", "Available")]).2
      = get_beds (create_or_update_bed beds
          [("bed_no", b), ("ward", w), ("status", "Available")]).2 := by
  by_cases hb : b = ""
  · simp [get_beds, create_or_update_bed, pget, isTruthy, hb]
  by_cases hw : w = ""
  · simp [get_beds, create_or_update_bed, pget, isTruthy, hb, hw]
  simp only [get_beds]
  cases hidx : beds.findIdx? (exactMatch b w) with
  | some i =>
    have hi : i < beds.length := (List.findIdx?_eq_some_iff_getElem.mp hidx).1
    have hold : beds[i]? = some beds[i] := List.getElem?_eq_getElem hi
    have hgetD : beds.getD i noBed = beds[i] := by
      rw [List.getD_eq_getElem?_getD, hold]
      rfl
    have h1 : (create_or_update_bed beds
          [("bed_no", b), ("ward", w), ("status", "Available")]).2
        = beds.set i ⟨beds[i].bed_no, beds[i].ward, "Available", none⟩ := by
      rw [upsert_avail_update beds b w i hb hw hidx, hgetD]
    have hmatch : exactMatch b w beds[i] = true :=
      (List.findIdx?_eq_some_iff_getElem.mp hidx).2.1
    have hnbmatch : exactMatch b w (⟨beds[i].bed_no, beds[i].ward, "Available", none⟩ : Bed)
        = true := by
      simp only [exactMatch] at hmatch ⊢
      exact hmatch
    have hidx2 : (beds.set i ⟨beds[i].bed_no, beds[i].ward, "Available", none⟩).findIdx?
        (exactMatch b w) = some i :=
      findIdx?_set_pred hidx hnbmatch
    have hget2 : (beds.set i ⟨beds[i].bed_no, beds[i].ward, "Available", none⟩).getD i noBed
        = ⟨beds[i].bed_no, beds[i].ward, "Available", none⟩ := by
      rw [List.getD_eq_getElem?_getD, List.getElem?_set_self (by simpa using hi)]
      rfl
    rw [h1, upsert_avail_update _ b w i hb hw hidx2, hget2, List.set_set]
  | none =>
    cases hany : beds.any (fun bb => bb.bed_no == b) with
    | true =>
      rw [upsert_avail_conflict beds b w hb hw hidx hany,
        upsert_avail_conflict beds b w hb hw hidx hany]
    | false =>
      rw [upsert_avail_create beds b w hb hw hidx hany]
      have hidx2 : (beds ++ [(⟨b, w, "Available", none⟩ : Bed)]).findIdx? (exactMatch b w)
          = some beds.length := by
        rw [List.findIdx?_append, hidx]
        simp [exactMatch]
      have hget2 : (beds ++ [(⟨b, w, "Available", none⟩ : Bed)]).getD beds.length noBed
          = ⟨b, w, "Available", none⟩ := by
        rw [List.getD_eq_getElem?_getD, List.getElem?_concat_length]
        rfl
      rw [upsert_avail_update _ b w beds.length hb hw hidx2, hget2]
      exact set_getElem?_eq (List.getElem?_concat_length _ _)
